import Mathlib

/-!
Shallow embedding of `src/planet_express.py`: a forward-Euler N-body
simulation (Earth, Moon, Sun).  Python floats are modelled by exact real
arithmetic; Python's `ZeroDivisionError` (raised in `loop_euler` when two
bodies coincide and `float(distance**3)` divides by zero) is modelled by
an explicit `Except` error, named `degenerateGeometry` after the spec's
error vocabulary.  Python object identity (the `planet == other_planet`
test in `loop_euler`, which is identity comparison because `Planet`
defines no `__eq__`) is modelled by a numeric `pid` field that is unique
per constructed object.
-/

namespace PlanetSim

open scoped Classical

/-- Error vocabulary of the spec (§7).  The source only ever raises the
division-by-zero error corresponding to `degenerateGeometry`. -/
inductive Err where
  | degenerateGeometry
  | invalidParameter
  | duplicateBody
deriving DecidableEq

/-- One simulated body: mirror of class `Planet` in the source,
plus `pid` modelling Python object identity (see file header). -/
@[ext]
structure Planet where
  pid : ℕ
  name : String
  x : ℝ
  y : ℝ
  vx : ℝ
  vy : ℝ
  ax : ℝ
  ay : ℝ
  mass : ℝ
  E_kin : ℝ
  E_pot : ℝ
  total_energy : ℝ
  x_positions : List ℝ
  y_positions : List ℝ
  energies : List ℝ
  kin_energies : List ℝ
  pot_energies : List ℝ

/-- Constructor `Planet.__init__` (source lines 37-53): stores every argument, sets
`total_energy = 0.0` and five empty history lists.  It performs no
validation of any argument. -/
def Planet.init (pid : ℕ) (name : String) (x y vx vy ax ay mass E_kin E_pot : ℝ) :
    Planet :=
  { pid := pid, name := name, x := x, y := y, vx := vx, vy := vy,
    ax := ax, ay := ay, mass := mass, E_kin := E_kin, E_pot := E_pot,
    total_energy := 0,
    x_positions := [], y_positions := [], energies := [],
    kin_energies := [], pot_energies := [] }

/-- Method `Planet.get_velocity` (source lines 55-56). -/
noncomputable def Planet.get_velocity (p : Planet) : ℝ :=
  Real.sqrt (p.vx ^ 2 + p.vy ^ 2)

/-- Gravitational constant `GRAV_CONST` as hard-coded inside `loop_euler`
(source line 87). -/
noncomputable def GRAV_CONST : ℝ := 6.67408e-11

/-- The pairwise distance `sqrt(dx**2 + dy**2)` computed in the inner
loop of `loop_euler` (source lines 92-95). -/
noncomputable def distance (p q : Planet) : ℝ :=
  Real.sqrt ((p.x - q.x) ^ 2 + (p.y - q.y) ^ 2)

/-- x-component of the acceleration contribution of `q` on `p`
(`acc_factor*dx`, source lines 97-99). -/
noncomputable def pairAx (p q : Planet) : ℝ :=
  -GRAV_CONST * q.mass / (distance p q) ^ 3 * (p.x - q.x)

/-- y-component of the acceleration contribution of `q` on `p`
(`acc_factor*dy`, source line 100). -/
noncomputable def pairAy (p q : Planet) : ℝ :=
  -GRAV_CONST * q.mass / (distance p q) ^ 3 * (p.y - q.y)

/-- Pairwise potential-energy contribution (source line 102). -/
noncomputable def pairPot (p q : Planet) : ℝ :=
  -GRAV_CONST * p.mass * q.mass / distance p q

/-- One iteration of the inner loop of `loop_euler` (source lines 90-102),
acting on the running `(ax, ay, E_pot)` accumulator of `p`.  The identity
test `not planet==other_planet` is a `pid` comparison; a zero distance is
Python's `ZeroDivisionError`, reported as `degenerateGeometry`. -/
noncomputable def accumPair (p : Planet) (acc : ℝ × ℝ × ℝ) (q : Planet) :
    Except Err (ℝ × ℝ × ℝ) :=
  if q.pid = p.pid then .ok acc
  else if distance p q = 0 then .error .degenerateGeometry
  else .ok (acc.1 + pairAx p q, acc.2.1 + pairAy p q, acc.2.2 + pairPot p q)

/-- The inner `for other_planet in planets` loop folded over the list;
a raised error aborts the remaining iterations, as an exception does. -/
noncomputable def forceAccumGo (p : Planet) :
    List Planet → ℝ × ℝ × ℝ → Except Err (ℝ × ℝ × ℝ)
  | [], acc => .ok acc
  | q :: rest, acc =>
      match accumPair p acc q with
      | .error e => .error e
      | .ok acc₂ => forceAccumGo p rest acc₂

/-- Force accumulation for body `p` against every entry of `l`, starting
from `p`'s current `(ax, ay, E_pot)` — the source resets `ax`/`ay` at the
end of each phase-1 body (lines 107-108) but never resets `E_pot`. -/
noncomputable def forceAccum (l : List Planet) (p : Planet) :
    Except Err (ℝ × ℝ × ℝ) :=
  forceAccumGo p l (p.ax, p.ay, p.E_pot)

/-- Phase-1 body update of `loop_euler` (source lines 89-114): force
accumulation, velocity update, `ax`/`ay` reset, energy recomputation, and
the three energy-history appends. -/
noncomputable def phase1Body (l : List Planet) (dt : ℝ) (p : Planet) :
    Except Err Planet :=
  match forceAccum l p with
  | .error e => .error e
  | .ok acc =>
      let p₁ : Planet := { p with vx := p.vx + acc.1 * dt, vy := p.vy + acc.2.1 * dt,
                                  ax := 0, ay := 0, E_pot := acc.2.2 }
      let ekin := 0.5 * p₁.mass * p₁.get_velocity ^ 2
      let total := ekin + p₁.E_pot
      .ok { p₁ with E_kin := ekin, total_energy := total,
                    energies := p₁.energies ++ [total],
                    kin_energies := p₁.kin_energies ++ [ekin],
                    pot_energies := p₁.pot_energies ++ [p₁.E_pot] }

/-- Phase-2 body update of `loop_euler` (source lines 116-121): position
update from the phase-1 velocity and the two position-history appends. -/
noncomputable def phase2Body (dt : ℝ) (p : Planet) : Planet :=
  { p with x := p.x + p.vx * dt, y := p.y + p.vy * dt,
           x_positions := p.x_positions ++ [p.x + p.vx * dt],
           y_positions := p.y_positions ++ [p.y + p.vy * dt] }

/-- The outer phase-1 loop with in-place mutation: when body `p` is
processed the list the inner loop sees is `done ++ p :: todo`, where
`done` holds the already-updated earlier bodies. -/
noncomputable def phase1Go (dt : ℝ) (done : List Planet) :
    List Planet → Except Err (List Planet)
  | [] => .ok done
  | p :: todo =>
      match phase1Body (done ++ p :: todo) dt p with
      | .error e => .error e
      | .ok p₂ => phase1Go dt (done ++ [p₂]) todo

/-- Phase 1 of `loop_euler` over the whole list. -/
noncomputable def phase1 (dt : ℝ) (l : List Planet) : Except Err (List Planet) :=
  phase1Go dt [] l

/-- Function `loop_euler(planets, dt)` (source lines 86-123): phase 1 for every
body, then the independent phase-2 position updates. -/
noncomputable def loop_euler (l : List Planet) (dt : ℝ) :
    Except Err (List Planet) :=
  match phase1 dt l with
  | .error e => .error e
  | .ok l₁ => .ok (l₁.map (phase2Body dt))

/-- Iterated stepping: `n` successive calls of `loop_euler`, as performed
by the driver. -/
noncomputable def stepN (dt : ℝ) : ℕ → List Planet → Except Err (List Planet)
  | 0, l => .ok l
  | n + 1, l =>
      match loop_euler l dt with
      | .error e => .error e
      | .ok l₂ => stepN dt n l₂

/-- Body `p` has a partner in `l` that is a distinct object (distinct
`pid`) at the identical position. -/
def hasPartner (l : List Planet) (p : Planet) : Prop :=
  ∃ q ∈ l, q.pid ≠ p.pid ∧ p.x = q.x ∧ p.y = q.y

/-- Some pair of distinct bodies (distinct `pid`s) occupies the identical
position — the condition under which `loop_euler` divides by zero. -/
def Degenerate (l : List Planet) : Prop :=
  ∃ p ∈ l, hasPartner l p

/-- Sum of the x-acceleration contributions on `p` of every entry of `l`
other than `p` itself. -/
noncomputable def axSum (p : Planet) (l : List Planet) : ℝ :=
  ((l.filter fun q => q.pid ≠ p.pid).map (pairAx p)).sum

/-- Sum of the y-acceleration contributions on `p`. -/
noncomputable def aySum (p : Planet) (l : List Planet) : ℝ :=
  ((l.filter fun q => q.pid ≠ p.pid).map (pairAy p)).sum

/-- Sum of the pairwise potential contributions on `p`. -/
noncomputable def potSum (p : Planet) (l : List Planet) : ℝ :=
  ((l.filter fun q => q.pid ≠ p.pid).map (pairPot p)).sum

/-- Non-degenerate value of the phase-1 update of one body. -/
noncomputable def phase1Fun (l : List Planet) (dt : ℝ) (p : Planet) : Planet :=
  let vx := p.vx + (p.ax + axSum p l) * dt
  let vy := p.vy + (p.ay + aySum p l) * dt
  let epot := p.E_pot + potSum p l
  let ekin := 0.5 * p.mass * Real.sqrt (vx ^ 2 + vy ^ 2) ^ 2
  { p with vx := vx, vy := vy, ax := 0, ay := 0, E_pot := epot,
           E_kin := ekin, total_energy := ekin + epot,
           energies := p.energies ++ [ekin + epot],
           kin_energies := p.kin_energies ++ [ekin],
           pot_energies := p.pot_energies ++ [epot] }

/-- Non-degenerate value of the whole step for one body. -/
noncomputable def stepBody (l : List Planet) (dt : ℝ) (p : Planet) : Planet :=
  phase2Body dt (phase1Fun l dt p)

/-- Sequential map in the `Except` monad, used to restate phase 1 as an
independent per-body update over the pre-step list. -/
noncomputable def mapExc (f : Planet → Except Err Planet) :
    List Planet → Except Err (List Planet)
  | [] => .ok []
  | p :: rest =>
      match f p with
      | .error e => .error e
      | .ok p₂ =>
          match mapExc f rest with
          | .error e => .error e
          | .ok rest₂ => .ok (p₂ :: rest₂)

/-- Driver loop of `Main` (source lines 133-136): `time = 0.0; while
time <= year: loop_euler(planets, dt); time += dt`, counting executed
steps from accumulated time `time`.  The loop body never modifies `time`,
so the count depends only on `duration`, `dt` and `time`; `dt > 0` is
required for termination. -/
noncomputable def whileSteps (duration dt : ℝ) (hdt : 0 < dt) (time : ℝ) : ℕ :=
  if h : time ≤ duration then whileSteps duration dt hdt (time + dt) + 1 else 0
termination_by Nat.floor ((duration - time) / dt + 1)
decreasing_by
  have hne : dt ≠ 0 := ne_of_gt hdt
  have h0 : (0 : ℝ) ≤ (duration - time) / dt :=
    div_nonneg (by linarith) hdt.le
  have hkey : (duration - (time + dt)) / dt + 1 = (duration - time) / dt := by
    field_simp
    ring
  rw [hkey]
  calc Nat.floor ((duration - time) / dt)
      < Nat.floor ((duration - time) / dt) + 1 := Nat.lt_succ_self _
    _ = Nat.floor ((duration - time) / dt + 1) := (Nat.floor_add_one h0).symm

/-- Total number of steps the driver executes, starting from `time = 0.0`. -/
noncomputable def driverSteps (duration dt : ℝ) (hdt : 0 < dt) : ℕ :=
  whileSteps duration dt hdt 0

/-! ### Geometry lemmas -/

lemma distance_eq_zero_iff (p q : Planet) :
    distance p q = 0 ↔ p.x = q.x ∧ p.y = q.y := by
  unfold distance
  rw [Real.sqrt_eq_zero (by positivity)]
  constructor
  · intro h
    have hx : (p.x - q.x) ^ 2 = 0 := by
      nlinarith [sq_nonneg (p.x - q.x), sq_nonneg (p.y - q.y)]
    have hy : (p.y - q.y) ^ 2 = 0 := by
      nlinarith [sq_nonneg (p.x - q.x), sq_nonneg (p.y - q.y)]
    exact ⟨sub_eq_zero.mp (sq_eq_zero_iff.mp hx), sub_eq_zero.mp (sq_eq_zero_iff.mp hy)⟩
  · rintro ⟨hx, hy⟩
    rw [hx, hy]
    simp

lemma distance_comm (p q : Planet) : distance p q = distance q p := by
  unfold distance
  rw [show (p.x - q.x) ^ 2 + (p.y - q.y) ^ 2 =
        (q.x - p.x) ^ 2 + (q.y - p.y) ^ 2 from by ring]

/-! ### The fields phase 1 reads from other bodies -/

/-- Data of a body that the force-accumulation loop reads from OTHER
bodies: identity, position and mass.  Phase 1 never writes any of them. -/
def key (p : Planet) : ℕ × ℝ × ℝ × ℝ := (p.pid, p.x, p.y, p.mass)

lemma key_parts {q q' : Planet} (h : key q = key q') :
    q.pid = q'.pid ∧ q.x = q'.x ∧ q.y = q'.y ∧ q.mass = q'.mass := by
  simpa [key, Prod.ext_iff] using h

lemma hasPartner_cons (q : Planet) (t : List Planet) (p : Planet) :
    hasPartner (q :: t) p ↔
      (q.pid ≠ p.pid ∧ p.x = q.x ∧ p.y = q.y) ∨ hasPartner t p := by
  unfold hasPartner
  simp [List.mem_cons, exists_eq_or_imp]

lemma axSum_cons (p q : Planet) (t : List Planet) :
    axSum p (q :: t) =
      if q.pid ≠ p.pid then pairAx p q + axSum p t else axSum p t := by
  unfold axSum
  rw [List.filter_cons]
  by_cases hc : q.pid ≠ p.pid
  · simp [hc]
  · simp [hc]

lemma aySum_cons (p q : Planet) (t : List Planet) :
    aySum p (q :: t) =
      if q.pid ≠ p.pid then pairAy p q + aySum p t else aySum p t := by
  unfold aySum
  rw [List.filter_cons]
  by_cases hc : q.pid ≠ p.pid
  · simp [hc]
  · simp [hc]

lemma potSum_cons (p q : Planet) (t : List Planet) :
    potSum p (q :: t) =
      if q.pid ≠ p.pid then pairPot p q + potSum p t else potSum p t := by
  unfold potSum
  rw [List.filter_cons]
  by_cases hc : q.pid ≠ p.pid
  · simp [hc]
  · simp [hc]

lemma hasPartner_congr (p : Planet) :
    ∀ {l l' : List Planet}, l.map key = l'.map key →
      (hasPartner l p ↔ hasPartner l' p) := by
  intro l
  induction l with
  | nil =>
      intro l' h
      cases l' with
      | nil => exact Iff.rfl
      | cons q' t' => simp at h
  | cons q t ih =>
      intro l' h
      cases l' with
      | nil => simp at h
      | cons q' t' =>
          simp only [List.map_cons, List.cons.injEq] at h
          obtain ⟨hk, ht⟩ := h
          obtain ⟨h1, h2, h3, h4⟩ := key_parts hk
          rw [hasPartner_cons, hasPartner_cons, h1, h2, h3, ih ht]

lemma sums_congr (p : Planet) :
    ∀ {l l' : List Planet}, l.map key = l'.map key →
      axSum p l = axSum p l' ∧ aySum p l = aySum p l' ∧ potSum p l = potSum p l' := by
  intro l
  induction l with
  | nil =>
      intro l' h
      cases l' with
      | nil => exact ⟨rfl, rfl, rfl⟩
      | cons q' t' => simp at h
  | cons q t ih =>
      intro l' h
      cases l' with
      | nil => simp at h
      | cons q' t' =>
          simp only [List.map_cons, List.cons.injEq] at h
          obtain ⟨hk, ht⟩ := h
          obtain ⟨h1, h2, h3, h4⟩ := key_parts hk
          obtain ⟨ihx, ihy, ihp⟩ := ih ht
          have hpa : pairAx p q = pairAx p q' := by
            unfold pairAx distance
            rw [h2, h3, h4]
          have hpy : pairAy p q = pairAy p q' := by
            unfold pairAy distance
            rw [h2, h3, h4]
          have hpp : pairPot p q = pairPot p q' := by
            unfold pairPot distance
            rw [h2, h3, h4]
          rw [axSum_cons, axSum_cons, aySum_cons, aySum_cons, potSum_cons,
              potSum_cons, h1, hpa, hpy, hpp, ihx, ihy, ihp]
          exact ⟨rfl, rfl, rfl⟩

/-! ### Characterization of force accumulation -/

lemma forceAccumGo_spec (p : Planet) :
    ∀ (l : List Planet) (acc : ℝ × ℝ × ℝ),
      forceAccumGo p l acc =
        if hasPartner l p then .error .degenerateGeometry
        else .ok (acc.1 + axSum p l, acc.2.1 + aySum p l, acc.2.2 + potSum p l) := by
  intro l
  induction l with
  | nil =>
      intro acc
      simp [forceAccumGo, hasPartner, axSum, aySum, potSum]
  | cons q t ih =>
      intro acc
      by_cases hq : q.pid = p.pid
      · have hstep : forceAccumGo p (q :: t) acc = forceAccumGo p t acc := by
          simp [forceAccumGo, accumPair, hq]
        have hcnd : hasPartner (q :: t) p ↔ hasPartner t p := by
          rw [hasPartner_cons]
          simp [hq]
        have hax : axSum p (q :: t) = axSum p t := by
          rw [axSum_cons, if_neg (by simpa using hq)]
        have hay : aySum p (q :: t) = aySum p t := by
          rw [aySum_cons, if_neg (by simpa using hq)]
        have hpot : potSum p (q :: t) = potSum p t := by
          rw [potSum_cons, if_neg (by simpa using hq)]
        rw [hstep, ih]
        by_cases hc : hasPartner t p
        · rw [if_pos hc, if_pos (hcnd.mpr hc)]
        · rw [if_neg hc, if_neg fun hh => hc (hcnd.mp hh), hax, hay, hpot]
      · by_cases hd : distance p q = 0
        · have hstep : forceAccumGo p (q :: t) acc = .error .degenerateGeometry := by
            simp [forceAccumGo, accumPair, hq, hd]
          rw [hstep, if_pos]
          exact (hasPartner_cons q t p).mpr
            (Or.inl ⟨hq, (distance_eq_zero_iff p q).mp hd⟩)
        · have hstep : forceAccumGo p (q :: t) acc =
              forceAccumGo p t
                (acc.1 + pairAx p q, acc.2.1 + pairAy p q, acc.2.2 + pairPot p q) := by
            simp [forceAccumGo, accumPair, hq, hd]
          have hnc : ¬(q.pid ≠ p.pid ∧ p.x = q.x ∧ p.y = q.y) := by
            rintro ⟨-, hxy⟩
            exact hd ((distance_eq_zero_iff p q).mpr hxy)
          have hcnd : hasPartner (q :: t) p ↔ hasPartner t p := by
            rw [hasPartner_cons]
            simp [hnc]
          have hax : axSum p (q :: t) = pairAx p q + axSum p t := by
            rw [axSum_cons, if_pos hq]
          have hay : aySum p (q :: t) = pairAy p q + aySum p t := by
            rw [aySum_cons, if_pos hq]
          have hpot : potSum p (q :: t) = pairPot p q + potSum p t := by
            rw [potSum_cons, if_pos hq]
          rw [hstep, ih]
          by_cases hc : hasPartner t p
          · rw [if_pos hc, if_pos (hcnd.mpr hc)]
          · rw [if_neg hc, if_neg fun hh => hc (hcnd.mp hh), hax, hay, hpot]
            simp only [Except.ok.injEq, Prod.mk.injEq]
            refine ⟨by ring, by ring, by ring⟩

lemma forceAccum_spec (l : List Planet) (p : Planet) :
    forceAccum l p =
      if hasPartner l p then .error .degenerateGeometry
      else .ok (p.ax + axSum p l, p.ay + aySum p l, p.E_pot + potSum p l) :=
  forceAccumGo_spec p l (p.ax, p.ay, p.E_pot)

/-! ### Characterization of phase 1 -/

lemma phase1Body_spec (l : List Planet) (dt : ℝ) (p : Planet) :
    phase1Body l dt p =
      if hasPartner l p then .error .degenerateGeometry
      else .ok (phase1Fun l dt p) := by
  unfold phase1Body
  rw [forceAccum_spec]
  by_cases hc : hasPartner l p
  · rw [if_pos hc, if_pos hc]
  · rw [if_neg hc, if_neg hc]
    rfl

lemma phase1Body_congr (dt : ℝ) (p : Planet) {l l' : List Planet}
    (h : l.map key = l'.map key) : phase1Body l dt p = phase1Body l' dt p := by
  obtain ⟨hx, hy, hp⟩ := sums_congr p h
  rw [phase1Body_spec, phase1Body_spec]
  by_cases hc : hasPartner l p
  · rw [if_pos hc, if_pos ((hasPartner_congr p h).mp hc)]
  · rw [if_neg hc, if_neg fun hh => hc ((hasPartner_congr p h).mpr hh)]
    unfold phase1Fun
    rw [hx, hy, hp]

lemma phase1Fun_key (l : List Planet) (dt : ℝ) (p : Planet) :
    key (phase1Fun l dt p) = key p := rfl

lemma phase1Body_key {l : List Planet} {dt : ℝ} {p p₂ : Planet}
    (h : phase1Body l dt p = .ok p₂) : key p₂ = key p := by
  rw [phase1Body_spec] at h
  by_cases hc : hasPartner l p
  · rw [if_pos hc] at h
    cases h
  · rw [if_neg hc] at h
    cases h
    exact phase1Fun_key l dt p

lemma phase1Go_eq (l : List Planet) (dt : ℝ) :
    ∀ (todo done : List Planet), (done ++ todo).map key = l.map key →
      phase1Go dt done todo =
        match mapExc (phase1Body l dt) todo with
        | .error e => .error e
        | .ok rest => .ok (done ++ rest) := by
  intro todo
  induction todo with
  | nil =>
      intro done h
      simp [phase1Go, mapExc]
  | cons p rest ih =>
      intro done h
      have hb : phase1Body (done ++ p :: rest) dt p = phase1Body l dt p :=
        phase1Body_congr dt p h
      rw [show phase1Go dt done (p :: rest) =
            match phase1Body (done ++ p :: rest) dt p with
            | .error e => .error e
            | .ok p₂ => phase1Go dt (done ++ [p₂]) rest from rfl,
          hb]
      cases hres : phase1Body l dt p with
      | error e =>
          simp [mapExc, hres]
      | ok p₂ =>
          have hkey : key p₂ = key p := phase1Body_key hres
          have h' : ((done ++ [p₂]) ++ rest).map key = l.map key := by
            rw [← h]
            simp [hkey]
          change phase1Go dt (done ++ [p₂]) rest = _
          rw [ih (done ++ [p₂]) h',
              show mapExc (phase1Body l dt) (p :: rest) =
                match phase1Body l dt p with
                | .error e => .error e
                | .ok p₃ =>
                    match mapExc (phase1Body l dt) rest with
                    | .error e => .error e
                    | .ok rest₂ => .ok (p₃ :: rest₂) from rfl,
              hres]
          cases hm : mapExc (phase1Body l dt) rest with
          | error e => simp
          | ok rest₂ => simp

lemma mapExc_phase1 (l : List Planet) (dt : ℝ) :
    ∀ (todo : List Planet),
      mapExc (phase1Body l dt) todo =
        if ∃ p ∈ todo, hasPartner l p then .error .degenerateGeometry
        else .ok (todo.map (phase1Fun l dt)) := by
  intro todo
  induction todo with
  | nil => simp [mapExc]
  | cons p rest ih =>
      rw [show mapExc (phase1Body l dt) (p :: rest) =
            match phase1Body l dt p with
            | .error e => .error e
            | .ok p₂ =>
                match mapExc (phase1Body l dt) rest with
                | .error e => .error e
                | .ok rest₂ => .ok (p₂ :: rest₂) from rfl,
          phase1Body_spec]
      by_cases hp : hasPartner l p
      · rw [if_pos hp, if_pos ⟨p, List.mem_cons_self p rest, hp⟩]
      · rw [if_neg hp, ih]
        by_cases hr : ∃ p' ∈ rest, hasPartner l p'
        · obtain ⟨p', hm, hc⟩ := hr
          rw [if_pos ⟨p', hm, hc⟩, if_pos ⟨p', List.mem_cons_of_mem p hm, hc⟩]
        · rw [if_neg hr, if_neg ?_]
          · simp
          · rintro ⟨p', hm, hc⟩
            rcases List.mem_cons.mp hm with h | h
            · exact hp (h ▸ hc)
            · exact hr ⟨p', h, hc⟩

lemma phase1_spec (dt : ℝ) (l : List Planet) :
    phase1 dt l =
      if Degenerate l then .error .degenerateGeometry
      else .ok (l.map (phase1Fun l dt)) := by
  unfold phase1
  rw [phase1Go_eq l dt l [] (by simp), mapExc_phase1]
  by_cases hd : Degenerate l
  · rw [if_pos (show (∃ p ∈ l, hasPartner l p) from hd), if_pos hd]
  · rw [if_neg (show ¬(∃ p ∈ l, hasPartner l p) from hd), if_neg hd]
    simp

/-! ### Characterization of a whole step -/

lemma loop_euler_spec (l : List Planet) (dt : ℝ) :
    loop_euler l dt =
      if Degenerate l then .error .degenerateGeometry
      else .ok (l.map (stepBody l dt)) := by
  unfold loop_euler
  rw [phase1_spec]
  by_cases hd : Degenerate l
  · rw [if_pos hd, if_pos hd]
  · rw [if_neg hd, if_neg hd]
    simp [stepBody, Function.comp]

lemma loop_euler_ok_inv {l r : List Planet} {dt : ℝ}
    (h : loop_euler l dt = .ok r) :
    ¬ Degenerate l ∧ r = l.map (stepBody l dt) := by
  rw [loop_euler_spec] at h
  by_cases hd : Degenerate l
  · rw [if_pos hd] at h
    cases h
  · rw [if_neg hd] at h
    cases h
    exact ⟨hd, rfl⟩

lemma loop_euler_ne_invalid (l : List Planet) (dt : ℝ) :
    loop_euler l dt ≠ .error .invalidParameter := by
  rw [loop_euler_spec]
  by_cases hd : Degenerate l
  · rw [if_pos hd]
    intro h
    cases h
  · rw [if_neg hd]
    intro h
    cases h

/-! ### Field-level facts about one step -/

lemma stepBody_pid (l : List Planet) (dt : ℝ) (p : Planet) :
    (stepBody l dt p).pid = p.pid := rfl

lemma stepBody_mass (l : List Planet) (dt : ℝ) (p : Planet) :
    (stepBody l dt p).mass = p.mass := rfl

lemma stepBody_vx (l : List Planet) (dt : ℝ) (p : Planet) :
    (stepBody l dt p).vx = p.vx + (p.ax + axSum p l) * dt := rfl

lemma stepBody_vy (l : List Planet) (dt : ℝ) (p : Planet) :
    (stepBody l dt p).vy = p.vy + (p.ay + aySum p l) * dt := rfl

lemma stepBody_x (l : List Planet) (dt : ℝ) (p : Planet) :
    (stepBody l dt p).x = p.x + (p.vx + (p.ax + axSum p l) * dt) * dt := rfl

lemma stepBody_y (l : List Planet) (dt : ℝ) (p : Planet) :
    (stepBody l dt p).y = p.y + (p.vy + (p.ay + aySum p l) * dt) * dt := rfl

lemma stepBody_E_pot (l : List Planet) (dt : ℝ) (p : Planet) :
    (stepBody l dt p).E_pot = p.E_pot + potSum p l := rfl

lemma stepBody_kin_energies (l : List Planet) (dt : ℝ) (p : Planet) :
    (stepBody l dt p).kin_energies = p.kin_energies ++
      [0.5 * p.mass * Real.sqrt ((p.vx + (p.ax + axSum p l) * dt) ^ 2 +
        (p.vy + (p.ay + aySum p l) * dt) ^ 2) ^ 2] := rfl

lemma stepBody_pot_energies (l : List Planet) (dt : ℝ) (p : Planet) :
    (stepBody l dt p).pot_energies = p.pot_energies ++ [p.E_pot + potSum p l] := rfl

lemma stepBody_x_positions (l : List Planet) (dt : ℝ) (p : Planet) :
    (stepBody l dt p).x_positions = p.x_positions ++
      [p.x + (p.vx + (p.ax + axSum p l) * dt) * dt] := rfl

lemma stepBody_y_positions (l : List Planet) (dt : ℝ) (p : Planet) :
    (stepBody l dt p).y_positions = p.y_positions ++
      [p.y + (p.vy + (p.ay + aySum p l) * dt) * dt] := rfl

lemma stepBody_energies_len (l : List Planet) (dt : ℝ) (p : Planet) :
    (stepBody l dt p).energies.length = p.energies.length + 1 := by
  show (p.energies ++ [_]).length = _
  simp

/-! ### Permutation invariance of the per-body update -/

lemma sums_perm (p : Planet) {l₁ l₂ : List Planet} (hp : l₁.Perm l₂) :
    axSum p l₁ = axSum p l₂ ∧ aySum p l₁ = aySum p l₂ ∧ potSum p l₁ = potSum p l₂ :=
  ⟨((hp.filter _).map _).sum_eq, ((hp.filter _).map _).sum_eq,
   ((hp.filter _).map _).sum_eq⟩

lemma hasPartner_perm (p : Planet) {l₁ l₂ : List Planet} (hp : l₁.Perm l₂) :
    hasPartner l₁ p ↔ hasPartner l₂ p := by
  unfold hasPartner
  constructor <;> rintro ⟨q, hq, hc⟩
  · exact ⟨q, hp.mem_iff.mp hq, hc⟩
  · exact ⟨q, hp.mem_iff.mpr hq, hc⟩

lemma degenerate_perm {l₁ l₂ : List Planet} (hp : l₁.Perm l₂) :
    Degenerate l₁ ↔ Degenerate l₂ := by
  unfold Degenerate
  constructor <;> rintro ⟨p, hm, hc⟩
  · exact ⟨p, hp.mem_iff.mp hm, (hasPartner_perm p hp).mp hc⟩
  · exact ⟨p, hp.mem_iff.mpr hm, (hasPartner_perm p hp).mpr hc⟩

lemma stepBody_perm (dt : ℝ) {l₁ l₂ : List Planet} (hp : l₁.Perm l₂) (p : Planet) :
    stepBody l₁ dt p = stepBody l₂ dt p := by
  obtain ⟨hx, hy, hpot⟩ := sums_perm p hp
  unfold stepBody phase1Fun
  rw [hx, hy, hpot]

/-! ### Iterated stepping -/

lemma stepN_zero (dt : ℝ) (l : List Planet) : stepN dt 0 l = .ok l := rfl

lemma stepN_succ (dt : ℝ) (n : ℕ) (l : List Planet) :
    stepN dt (n + 1) l =
      match loop_euler l dt with
      | .error e => .error e
      | .ok l₂ => stepN dt n l₂ := rfl

lemma stepN_lengths (dt : ℝ) :
    ∀ (N : ℕ) (l l' : List Planet) (n : ℕ),
      (∀ p ∈ l, p.x_positions.length = n ∧ p.y_positions.length = n ∧
        p.energies.length = n ∧ p.kin_energies.length = n ∧
        p.pot_energies.length = n) →
      stepN dt N l = .ok l' →
      ∀ p' ∈ l', p'.x_positions.length = n + N ∧ p'.y_positions.length = n + N ∧
        p'.energies.length = n + N ∧ p'.kin_energies.length = n + N ∧
        p'.pot_energies.length = n + N := by
  intro N
  induction N with
  | zero =>
      intro l l' n hinv h
      cases h
      simpa using hinv
  | succ N ih =>
      intro l l' n hinv h
      rw [stepN_succ] at h
      cases hle : loop_euler l dt with
      | error e =>
          rw [hle] at h
          cases h
      | ok l₂ =>
          rw [hle] at h
          obtain ⟨-, rfl⟩ := loop_euler_ok_inv hle
          have hinv₂ : ∀ p ∈ l.map (stepBody l dt), p.x_positions.length = n + 1 ∧
              p.y_positions.length = n + 1 ∧ p.energies.length = n + 1 ∧
              p.kin_energies.length = n + 1 ∧ p.pot_energies.length = n + 1 := by
            intro p₂ hp₂
            obtain ⟨p, hp, rfl⟩ := List.mem_map.mp hp₂
            obtain ⟨e1, e2, e3, e4, e5⟩ := hinv p hp
            refine ⟨?_, ?_, ?_, ?_, ?_⟩
            · rw [stepBody_x_positions]
              simp [e1]
            · rw [stepBody_y_positions]
              simp [e2]
            · rw [stepBody_energies_len, e3]
            · rw [stepBody_kin_energies]
              simp [e4]
            · rw [stepBody_pot_energies]
              simp [e5]
          have := ih (l.map (stepBody l dt)) l' (n + 1) hinv₂ h
          intro p' hp'
          obtain ⟨e1, e2, e3, e4, e5⟩ := this p' hp'
          refine ⟨?_, ?_, ?_, ?_, ?_⟩ <;> omega

lemma stepN_kin_nonneg (dt : ℝ) :
    ∀ (N : ℕ) (l l' : List Planet),
      (∀ p ∈ l, 0 ≤ p.mass) →
      (∀ p ∈ l, ∀ e ∈ p.kin_energies, 0 ≤ e) →
      stepN dt N l = .ok l' →
      ∀ p' ∈ l', ∀ e ∈ p'.kin_energies, 0 ≤ e := by
  intro N
  induction N with
  | zero =>
      intro l l' hm hk h
      cases h
      exact hk
  | succ N ih =>
      intro l l' hm hk h
      rw [stepN_succ] at h
      cases hle : loop_euler l dt with
      | error e =>
          rw [hle] at h
          cases h
      | ok l₂ =>
          rw [hle] at h
          obtain ⟨-, rfl⟩ := loop_euler_ok_inv hle
          refine ih (l.map (stepBody l dt)) l' ?_ ?_ h
          · intro p₂ hp₂
            obtain ⟨p, hp, rfl⟩ := List.mem_map.mp hp₂
            rw [stepBody_mass]
            exact hm p hp
          · intro p₂ hp₂ e he
            obtain ⟨p, hp, rfl⟩ := List.mem_map.mp hp₂
            rw [stepBody_kin_energies] at he
            rcases List.mem_append.mp he with h' | h'
            · exact hk p hp e h'
            · rw [List.mem_singleton.mp h']
              have : (0 : ℝ) ≤ 0.5 * p.mass := by
                have := hm p hp
                linarith
              exact mul_nonneg this (sq_nonneg _)

/-! ### Concrete bodies for evaluation -/

/-- Test body at the origin with unit mass and zero velocity. -/
noncomputable def bodyA : Planet := Planet.init 0 "a" 0 0 0 0 0 0 1 0 0

/-- Test body at position `(3, 4)` (distance 5 from `bodyA`) with unit
mass and zero velocity. -/
noncomputable def bodyB : Planet := Planet.init 1 "b" 3 4 0 0 0 0 1 0 0

lemma sqrt_twentyfive : Real.sqrt 25 = 5 := by
  rw [show (25 : ℝ) = 5 ^ 2 by norm_num]
  exact Real.sqrt_sq (by norm_num)

lemma distance_AB : distance bodyA bodyB = 5 := by
  have h : distance bodyA bodyB = Real.sqrt 25 := by
    unfold distance
    norm_num [bodyA, bodyB, Planet.init]
  rw [h, sqrt_twentyfive]

lemma not_deg_AB : ¬ Degenerate [bodyA, bodyB] := by
  rintro ⟨p, hp, q, hq, hpid, hx, hy⟩
  simp only [List.mem_cons, List.not_mem_nil, or_false] at hp hq
  rcases hp with rfl | rfl <;> rcases hq with rfl | rfl <;>
    simp [bodyA, bodyB, Planet.init] at hpid hx hy

/-! ### Claims -/

/-- Claim C3: a call to `loop_euler` fails with the `DegenerateGeometry`
error if and only if some pair of distinct bodies in the list occupies
the identical position at the start of the step; when all pairwise
distances are nonzero, the step completes without error. -/
theorem c3_degenerate_geometry_iff (l : List Planet) (dt : ℝ) :
    (loop_euler l dt = .error .degenerateGeometry ↔
      ∃ p ∈ l, ∃ q ∈ l, q.pid ≠ p.pid ∧ p.x = q.x ∧ p.y = q.y) ∧
    (¬(∃ p ∈ l, ∃ q ∈ l, q.pid ≠ p.pid ∧ p.x = q.x ∧ p.y = q.y) →
      ∃ r, loop_euler l dt = .ok r) := by
  constructor
  · rw [loop_euler_spec]
    by_cases hd : Degenerate l
    · rw [if_pos hd]
      exact ⟨fun _ => hd, fun _ => rfl⟩
    · rw [if_neg hd]
      constructor
      · intro h
        cases h
      · intro h
        exact absurd h hd
  · intro h
    rw [loop_euler_spec, if_neg (show ¬ Degenerate l from h)]
    exact ⟨_, rfl⟩

/-- Witness for C3 at a concrete non-degenerate two-body list. -/
theorem c3_witness : ∃ r, loop_euler [bodyA, bodyB] 1 = .ok r :=
  (c3_degenerate_geometry_iff [bodyA, bodyB] 1).2 not_deg_AB

/-- Claim C4: after `N` successful steps from freshly constructed bodies
(empty histories), every body's five history sequences — x positions,
y positions, total energies, kinetic energies, potential energies — have
length exactly `N`, for all bodies; each step appends exactly one value
to each sequence. -/
theorem c4_history_lengths (dt : ℝ) (N : ℕ) (l l' : List Planet)
    (hinit : ∀ p ∈ l, p.x_positions = [] ∧ p.y_positions = [] ∧
      p.energies = [] ∧ p.kin_energies = [] ∧ p.pot_energies = [])
    (h : stepN dt N l = .ok l') :
    ∀ p' ∈ l', p'.x_positions.length = N ∧ p'.y_positions.length = N ∧
      p'.energies.length = N ∧ p'.kin_energies.length = N ∧
      p'.pot_energies.length = N := by
  have h0 : ∀ p ∈ l, p.x_positions.length = 0 ∧ p.y_positions.length = 0 ∧
      p.energies.length = 0 ∧ p.kin_energies.length = 0 ∧
      p.pot_energies.length = 0 := by
    intro p hp
    obtain ⟨e1, e2, e3, e4, e5⟩ := hinit p hp
    simp [e1, e2, e3, e4, e5]
  have := stepN_lengths dt N l l' 0 h0 h
  simpa using this

/-- Witness for C4: one step on a concrete two-body list gives histories
of length one. -/
theorem c4_witness :
    ∃ l', stepN 1 1 [bodyA, bodyB] = .ok l' ∧
      ∀ p' ∈ l', p'.x_positions.length = 1 ∧ p'.y_positions.length = 1 ∧
        p'.energies.length = 1 ∧ p'.kin_energies.length = 1 ∧
        p'.pot_energies.length = 1 := by
  have hok : loop_euler [bodyA, bodyB] 1 =
      .ok ([bodyA, bodyB].map (stepBody [bodyA, bodyB] 1)) := by
    rw [loop_euler_spec, if_neg not_deg_AB]
  have hstep : stepN 1 1 [bodyA, bodyB] =
      .ok ([bodyA, bodyB].map (stepBody [bodyA, bodyB] 1)) := by
    rw [stepN_succ, hok]
    rfl
  refine ⟨_, hstep, c4_history_lengths 1 1 [bodyA, bodyB] _ ?_ hstep⟩
  intro p hp
  simp only [List.mem_cons, List.not_mem_nil, or_false] at hp
  rcases hp with rfl | rfl <;> exact ⟨rfl, rfl, rfl, rfl, rfl⟩

/-- Test body with negative mass, used to show that construction
performs no validation. -/
noncomputable def bodyNeg : Planet := Planet.init 0 "neg" 0 0 0 0 0 0 (-1) 0 0

lemma not_deg_NegB : ¬ Degenerate [bodyNeg, bodyB] := by
  rintro ⟨p, hp, q, hq, hpid, hx, hy⟩
  simp only [List.mem_cons, List.not_mem_nil, or_false] at hp hq
  rcases hp with rfl | rfl <;> rcases hq with rfl | rfl <;>
    simp [bodyNeg, bodyB, Planet.init] at hpid hx hy

/-- Claim C5 counterexample: a `Planet` is constructed with mass
`-1 ≤ 0` without any error (the body exists and stores that mass), and a
step with `dt = -1 ≤ 0` completes without raising `InvalidParameter`. -/
theorem c5_counterexample :
    bodyNeg.mass = -1 ∧ bodyNeg.x_positions = [] ∧
      ∃ r, loop_euler [bodyNeg, bodyB] (-1) = .ok r := by
  refine ⟨rfl, rfl, ?_⟩
  rw [loop_euler_spec, if_neg not_deg_NegB]
  exact ⟨_, rfl⟩

/-- Claim C5 amended: the code performs no parameter validation at all —
`Planet.__init__` stores any mass (including nonpositive ones) without
failing, and `loop_euler` never fails with `InvalidParameter` for any
`dt`; its only error is `DegenerateGeometry`. -/
theorem c5_no_validation (pid : ℕ) (nm : String)
    (x y vx vy ax ay mass ek ep : ℝ) (l : List Planet) (dt : ℝ) :
    (Planet.init pid nm x y vx vy ax ay mass ek ep).mass = mass ∧
    loop_euler l dt ≠ .error .invalidParameter :=
  ⟨rfl, loop_euler_ne_invalid l dt⟩

/-- Claim C6: Newton's third law for the pairwise acceleration
contributions computed during force accumulation: for two bodies at
nonzero separation, the contribution of `q` on `p` scaled by `p`'s mass
is the exact negation of the contribution of `p` on `q` scaled by `q`'s
mass, in both components, over exact arithmetic. -/
theorem c6_newton_third_law (p q : Planet) (h : distance p q ≠ 0) :
    p.mass * pairAx p q = -(q.mass * pairAx q p) ∧
    p.mass * pairAy p q = -(q.mass * pairAy q p) := by
  have hd : distance q p = distance p q := (distance_comm p q).symm
  constructor
  · unfold pairAx
    rw [hd]
    ring
  · unfold pairAy
    rw [hd]
    ring

/-- Witness for C6 at two concrete bodies at distance 5. -/
theorem c6_witness :
    bodyA.mass * pairAx bodyA bodyB = -(bodyB.mass * pairAx bodyB bodyA) ∧
    bodyA.mass * pairAy bodyA bodyB = -(bodyB.mass * pairAy bodyB bodyA) :=
  c6_newton_third_law bodyA bodyB (by rw [distance_AB]; norm_num)

/-- Claim C7: one step on a permuted body list yields the correspondingly
permuted per-body results: the per-body step function is identical on the
two lists, and on success the output of the permuted list is the output
of the original list permuted the same way. -/
theorem c7_permutation (l₁ l₂ : List Planet) (dt : ℝ) (hdt : 0 < dt)
    (hp : l₁.Perm l₂) :
    (∀ p, stepBody l₁ dt p = stepBody l₂ dt p) ∧
    ∀ r₁, loop_euler l₁ dt = .ok r₁ →
      ∃ r₂, loop_euler l₂ dt = .ok r₂ ∧ r₁.Perm r₂ ∧
        r₂ = l₂.map (stepBody l₁ dt) := by
  refine ⟨fun p => stepBody_perm dt hp p, ?_⟩
  intro r₁ h
  obtain ⟨hnd, rfl⟩ := loop_euler_ok_inv h
  have hnd₂ : ¬ Degenerate l₂ := fun hh => hnd ((degenerate_perm hp).mpr hh)
  have hmap : l₂.map (stepBody l₂ dt) = l₂.map (stepBody l₁ dt) :=
    List.map_congr_left fun p _ => (stepBody_perm dt hp p).symm
  refine ⟨l₂.map (stepBody l₂ dt), ?_, ?_, hmap⟩
  · rw [loop_euler_spec, if_neg hnd₂]
  · rw [hmap]
    exact hp.map _

/-- Witness for C7 on a concrete two-element list and its swap. -/
theorem c7_witness :
    (∀ p, stepBody [bodyA, bodyB] 1 p = stepBody [bodyB, bodyA] 1 p) ∧
    ∀ r₁, loop_euler [bodyA, bodyB] 1 = .ok r₁ →
      ∃ r₂, loop_euler [bodyB, bodyA] 1 = .ok r₂ ∧ r₁.Perm r₂ ∧
        r₂ = [bodyB, bodyA].map (stepBody [bodyA, bodyB] 1) :=
  c7_permutation [bodyA, bodyB] [bodyB, bodyA] 1 (by norm_num)
    (List.Perm.swap bodyB bodyA [])

/-- Claim C10: for bodies with nonnegative mass (and every value of the
initial kinetic-energy history nonnegative, as holds for freshly
constructed bodies), every value in every body's kinetic-energy history
after any number of successful steps is nonnegative, because each step
appends `0.5 * mass * velocity²`. -/
theorem c10_kin_energy_nonneg (dt : ℝ) (N : ℕ) (l l' : List Planet)
    (hm : ∀ p ∈ l, 0 ≤ p.mass)
    (hk : ∀ p ∈ l, ∀ e ∈ p.kin_energies, 0 ≤ e)
    (h : stepN dt N l = .ok l') :
    ∀ p' ∈ l', ∀ e ∈ p'.kin_energies, 0 ≤ e :=
  stepN_kin_nonneg dt N l l' hm hk h

/-- Witness for C10: one concrete step preserves nonnegativity. -/
theorem c10_witness :
    ∃ l', stepN 1 1 [bodyA, bodyB] = .ok l' ∧
      ∀ p' ∈ l', ∀ e ∈ p'.kin_energies, 0 ≤ e := by
  have hok : loop_euler [bodyA, bodyB] 1 =
      .ok ([bodyA, bodyB].map (stepBody [bodyA, bodyB] 1)) := by
    rw [loop_euler_spec, if_neg not_deg_AB]
  have hstep : stepN 1 1 [bodyA, bodyB] =
      .ok ([bodyA, bodyB].map (stepBody [bodyA, bodyB] 1)) := by
    rw [stepN_succ, hok]
    rfl
  refine ⟨_, hstep, c10_kin_energy_nonneg 1 1 [bodyA, bodyB] _ ?_ ?_ hstep⟩
  · intro p hp
    simp only [List.mem_cons, List.not_mem_nil, or_false] at hp
    rcases hp with rfl | rfl <;> norm_num [bodyA, bodyB, Planet.init]
  · intro p hp e he
    simp only [List.mem_cons, List.not_mem_nil, or_false] at hp
    rcases hp with rfl | rfl <;> simp [bodyA, bodyB, Planet.init] at he

/-- Claim C2: one call to `loop_euler` with `dt > 0` on distinct bodies
with pairwise-distinct positions and zeroed acceleration accumulators
(the state every reachable simulation state satisfies, since the source
zeroes `ax`/`ay` at construction and at the end of every phase-1 body)
gives every body the velocity `v + A * dt`, where `A` is the full
pairwise acceleration sum over the pre-step positions added once after
the whole sum, and the position `x + (v + A * dt) * dt` computed from the
already-updated velocity; positions are read pre-step throughout, so no
position mutation happens before all velocity updates complete. -/
theorem c2_step_euler (l : List Planet) (dt : ℝ) (hdt : 0 < dt)
    (hpid : (l.map Planet.pid).Nodup)
    (hacc : ∀ p ∈ l, p.ax = 0 ∧ p.ay = 0)
    (hsep : ∀ p ∈ l, ∀ q ∈ l, q.pid ≠ p.pid → ¬(p.x = q.x ∧ p.y = q.y)) :
    ∃ r, loop_euler l dt = .ok r ∧ r.length = l.length ∧
      ∀ i (hi : i < l.length) (hir : i < r.length),
        (r.get ⟨i, hir⟩).vx = (l.get ⟨i, hi⟩).vx +
          (((l.filter fun q => q.pid ≠ (l.get ⟨i, hi⟩).pid).map fun q =>
            -GRAV_CONST * q.mass * ((l.get ⟨i, hi⟩).x - q.x) /
              distance (l.get ⟨i, hi⟩) q ^ 3).sum) * dt ∧
        (r.get ⟨i, hir⟩).vy = (l.get ⟨i, hi⟩).vy +
          (((l.filter fun q => q.pid ≠ (l.get ⟨i, hi⟩).pid).map fun q =>
            -GRAV_CONST * q.mass * ((l.get ⟨i, hi⟩).y - q.y) /
              distance (l.get ⟨i, hi⟩) q ^ 3).sum) * dt ∧
        (r.get ⟨i, hir⟩).x = (l.get ⟨i, hi⟩).x + (r.get ⟨i, hir⟩).vx * dt ∧
        (r.get ⟨i, hir⟩).y = (l.get ⟨i, hi⟩).y + (r.get ⟨i, hir⟩).vy * dt := by
  have hax_eq : ∀ p : Planet, axSum p l =
      ((l.filter fun q => q.pid ≠ p.pid).map fun q =>
        -GRAV_CONST * q.mass * (p.x - q.x) / distance p q ^ 3).sum := by
    intro p
    unfold axSum
    congr 1
    apply List.map_congr_left
    intro q _
    unfold pairAx
    rw [div_mul_eq_mul_div]
  have hay_eq : ∀ p : Planet, aySum p l =
      ((l.filter fun q => q.pid ≠ p.pid).map fun q =>
        -GRAV_CONST * q.mass * (p.y - q.y) / distance p q ^ 3).sum := by
    intro p
    unfold aySum
    congr 1
    apply List.map_congr_left
    intro q _
    unfold pairAy
    rw [div_mul_eq_mul_div]
  have hnd : ¬ Degenerate l := by
    rintro ⟨p, hp, q, hq, hpidne, hx, hy⟩
    exact hsep p hp q hq hpidne ⟨hx, hy⟩
  refine ⟨l.map (stepBody l dt), by rw [loop_euler_spec, if_neg hnd],
    by simp, ?_⟩
  intro i hi hir
  have hpmem : l.get ⟨i, hi⟩ ∈ l := List.get_mem l i hi
  obtain ⟨hax0, hay0⟩ := hacc _ hpmem
  have hget : (l.map (stepBody l dt)).get ⟨i, hir⟩ = stepBody l dt (l.get ⟨i, hi⟩) := by
    simp [List.get_eq_getElem]
  rw [hget, stepBody_vx, stepBody_vy, stepBody_x, stepBody_y, hax0, hay0,
      hax_eq, hay_eq, zero_add, zero_add]
  exact ⟨rfl, rfl, rfl, rfl⟩

/-- Witness for C2 at a concrete two-body list with `dt = 1`. -/
theorem c2_witness :
    ∃ r, loop_euler [bodyA, bodyB] 1 = .ok r ∧
      r.length = [bodyA, bodyB].length ∧
      ∀ i (hi : i < [bodyA, bodyB].length) (hir : i < r.length),
        (r.get ⟨i, hir⟩).vx = ([bodyA, bodyB].get ⟨i, hi⟩).vx +
          ((([bodyA, bodyB].filter fun q =>
              q.pid ≠ ([bodyA, bodyB].get ⟨i, hi⟩).pid).map fun q =>
            -GRAV_CONST * q.mass * (([bodyA, bodyB].get ⟨i, hi⟩).x - q.x) /
              distance ([bodyA, bodyB].get ⟨i, hi⟩) q ^ 3).sum) * 1 ∧
        (r.get ⟨i, hir⟩).vy = ([bodyA, bodyB].get ⟨i, hi⟩).vy +
          ((([bodyA, bodyB].filter fun q =>
              q.pid ≠ ([bodyA, bodyB].get ⟨i, hi⟩).pid).map fun q =>
            -GRAV_CONST * q.mass * (([bodyA, bodyB].get ⟨i, hi⟩).y - q.y) /
              distance ([bodyA, bodyB].get ⟨i, hi⟩) q ^ 3).sum) * 1 ∧
        (r.get ⟨i, hir⟩).x = ([bodyA, bodyB].get ⟨i, hi⟩).x +
          (r.get ⟨i, hir⟩).vx * 1 ∧
        (r.get ⟨i, hir⟩).y = ([bodyA, bodyB].get ⟨i, hi⟩).y +
          (r.get ⟨i, hir⟩).vy * 1 := by
  apply c2_step_euler [bodyA, bodyB] 1 (by norm_num)
  · simp [bodyA, bodyB, Planet.init]
  · intro p hp
    simp only [List.mem_cons, List.not_mem_nil, or_false] at hp
    rcases hp with rfl | rfl <;> exact ⟨rfl, rfl⟩
  · intro p hp q hq hpid
    simp only [List.mem_cons, List.not_mem_nil, or_false] at hp hq
    rcases hp with rfl | rfl <;> rcases hq with rfl | rfl <;>
      simp [bodyA, bodyB, Planet.init] at hpid ⊢

/-- Unfolding equation for the driver loop count: below the guard the
count is one more than the count of the floor of the remaining time. -/
lemma whileSteps_eq_floor (duration dt : ℝ) (hdt : 0 < dt) :
    ∀ (n : ℕ) (time : ℝ), Nat.floor ((duration - time) / dt) = n →
      time ≤ duration → whileSteps duration dt hdt time = n + 1 := by
  intro n
  induction n using Nat.strong_induction_on with
  | _ n ih =>
      intro time hfl htle
      rw [whileSteps, dif_pos htle]
      by_cases h2 : time + dt ≤ duration
      · have h1le : (1 : ℝ) ≤ (duration - time) / dt := by
          rw [le_div_iff₀ hdt]
          linarith
        have hx0 : (0 : ℝ) ≤ (duration - time) / dt := by linarith
        have hn1 : 1 ≤ n := by
          rw [← hfl]
          exact Nat.le_floor (by exact_mod_cast h1le)
        obtain ⟨m, rfl⟩ : ∃ m, n = m + 1 := ⟨n - 1, by omega⟩
        have hmle : (m : ℝ) + 1 ≤ (duration - time) / dt ∧
            (duration - time) / dt < (m : ℝ) + 1 + 1 := by
          have := (Nat.floor_eq_iff hx0).mp hfl
          constructor
          · exact_mod_cast this.1
          · exact_mod_cast this.2
        have hstep : (duration - (time + dt)) / dt = (duration - time) / dt - 1 := by
          field_simp
          ring
        have hfl' : Nat.floor ((duration - (time + dt)) / dt) = m := by
          rw [hstep]
          rw [Nat.floor_eq_iff (by linarith [hmle.1])]
          constructor
          · linarith [hmle.1]
          · linarith [hmle.2]
        rw [ih m (by omega) (time + dt) hfl' h2]
      · have hz : whileSteps duration dt hdt (time + dt) = 0 := by
          rw [whileSteps, dif_neg (by linarith)]
        have hx1 : (duration - time) / dt < 1 := by
          rw [div_lt_one hdt]
          linarith
        have hn0 : n = 0 := by
          rw [← hfl]
          exact Nat.floor_eq_zero.mpr hx1
        rw [hz, hn0]

/-- Claim C9: the driver guards each iteration with `elapsed <= duration`
and adds `dt` after each step, so for `duration ≥ 0` and `dt > 0` the
number of executed steps is `⌊duration / dt⌋ + 1`; in particular when
`duration` is an exact multiple `k * dt`, `k + 1` steps execute — one
beyond `duration / dt` — and the final step pushes the accumulated time
past `duration`. -/
theorem c9_driver_step_count (duration dt : ℝ) (hdt : 0 < dt)
    (hdur : 0 ≤ duration) :
    driverSteps duration dt hdt = Nat.floor (duration / dt) + 1 ∧
    ∀ k : ℕ, duration = k * dt → driverSteps duration dt hdt = k + 1 := by
  have hmain : driverSteps duration dt hdt = Nat.floor (duration / dt) + 1 := by
    unfold driverSteps
    exact whileSteps_eq_floor duration dt hdt (Nat.floor (duration / dt)) 0
      (by rw [sub_zero]) hdur
  refine ⟨hmain, ?_⟩
  intro k hk
  rw [hmain, hk, mul_div_cancel_right₀ _ (ne_of_gt hdt), Nat.floor_natCast]

/-- Witness for C9: a duration of 2500 with `dt = 1000` executes
`⌊2.5⌋ + 1 = 3` steps. -/
theorem c9_witness : driverSteps 2500 1000 (by norm_num) = 3 := by
  have h := (c9_driver_step_count 2500 1000 (by norm_num) (by norm_num)).1
  rw [h]
  have : Nat.floor ((2500 : ℝ) / 1000) = 2 := by
    rw [Nat.floor_eq_iff (by norm_num)]
    norm_num
  rw [this]

/-- Earth exactly as constructed in `setup_planets` (source line 77):
position `(0, 149.5999e9)`, velocity `(29760.84, 0)`, mass `5.972e24`. -/
noncomputable def earth : Planet :=
  Planet.init 0 "earth" 0 149.5999e9 29760.84 0 0 0 5.972e24 0 0

/-- Sun exactly as constructed in `setup_planets` (source line 79): at
the origin with zero velocity and mass `1.9885e30`; nothing in the code
pins it. -/
noncomputable def sun : Planet :=
  Planet.init 1 "sun" 0 0 0 0 0 0 1.9885e30 0 0

lemma distance_ES : distance earth sun = 149.5999e9 := by
  have h : (earth.x - sun.x) ^ 2 + (earth.y - sun.y) ^ 2 =
      (149.5999e9 : ℝ) ^ 2 := by
    norm_num [earth, sun, Planet.init]
  unfold distance
  rw [h, Real.sqrt_sq (by norm_num)]

lemma not_deg_ES : ¬ Degenerate [earth, sun] := by
  rintro ⟨p, hp, q, hq, hpid, hx, hy⟩
  simp only [List.mem_cons, List.not_mem_nil, or_false] at hp hq
  rcases hp with rfl | rfl <;> rcases hq with rfl | rfl <;>
    norm_num [earth, sun, Planet.init] at hpid hx hy

lemma axSum_earth_ES : axSum earth [earth, sun] = 0 := by
  rw [axSum_cons, if_neg (by simp), axSum_cons,
      if_pos (by simp [earth, sun, Planet.init])]
  have h1 : pairAx earth sun = 0 := by
    unfold pairAx
    simp [earth, sun, Planet.init]
  have h0 : axSum earth ([] : List Planet) = 0 := by simp [axSum]
  rw [h1, h0, add_zero]

lemma aySum_earth_ES : aySum earth [earth, sun] < 0 := by
  rw [aySum_cons, if_neg (by simp), aySum_cons,
      if_pos (by simp [earth, sun, Planet.init])]
  have h0 : aySum earth ([] : List Planet) = 0 := by simp [aySum]
  rw [h0, add_zero]
  unfold pairAy
  rw [distance_ES, show earth.y - sun.y = 149.5999e9 from by
    norm_num [earth, sun, Planet.init]]
  have hG : -GRAV_CONST * sun.mass / (149.5999e9 : ℝ) ^ 3 < 0 := by
    apply div_neg_of_neg_of_pos
    · norm_num [GRAV_CONST, sun, Planet.init]
    · norm_num
  exact mul_neg_of_neg_of_pos hG (by norm_num)

lemma aySum_sun_ES : 0 < aySum sun [earth, sun] := by
  rw [aySum_cons, if_pos (by simp [earth, sun, Planet.init]), aySum_cons,
      if_neg (by simp)]
  have h0 : aySum sun ([] : List Planet) = 0 := by simp [aySum]
  rw [h0, add_zero]
  unfold pairAy
  rw [show distance sun earth = 149.5999e9 from by
        rw [distance_comm]; exact distance_ES,
      show sun.y - earth.y = -149.5999e9 from by
        norm_num [earth, sun, Planet.init]]
  have hG : -GRAV_CONST * earth.mass / (149.5999e9 : ℝ) ^ 3 < 0 := by
    apply div_neg_of_neg_of_pos
    · norm_num [GRAV_CONST, earth, Planet.init]
    · norm_num
  exact mul_pos_of_neg_of_neg hG (by norm_num)

/-- Claim C8: with the Sun at the origin (mass `1.9885e30`, not pinned)
and Earth at `(0, 1.495999e11)` with velocity `(29760.84, 0)`, one
`loop_euler` step with `dt = 1000` (G is hard-coded to `6.67408e-11`)
gives Earth the x coordinate `29760.84 * 1000 = 2.976084e7` exactly —
the x acceleration is included in the computed velocity and happens to
be exactly zero because both bodies sit at `x = 0` — and a y coordinate
strictly below `1.495999e11`; the Sun's y velocity becomes positive,
confirming it is not artificially fixed. -/
theorem c8_concrete_scenario :
    ∃ e' s', loop_euler [earth, sun] 1000 = .ok [e', s'] ∧
      e'.x = 2.976084e7 ∧ e'.y < 1.495999e11 ∧ 0 < s'.vy := by
  refine ⟨stepBody [earth, sun] 1000 earth, stepBody [earth, sun] 1000 sun,
    ?_, ?_, ?_, ?_⟩
  · rw [loop_euler_spec, if_neg not_deg_ES]
    rfl
  · rw [stepBody_x, axSum_earth_ES]
    norm_num [earth, Planet.init]
  · rw [stepBody_y]
    have h1 : (earth.ay + aySum earth [earth, sun]) * 1000 < 0 := by
      rw [show earth.ay = 0 from rfl, zero_add]
      exact mul_neg_of_neg_of_pos aySum_earth_ES (by norm_num)
    have h2 : (earth.vy + (earth.ay + aySum earth [earth, sun]) * 1000) * 1000 < 0 := by
      rw [show earth.vy = 0 from rfl, zero_add]
      exact mul_neg_of_neg_of_pos h1 (by norm_num)
    rw [show earth.y = 149.5999e9 from rfl]
    have h3 : (149.5999e9 : ℝ) = 1.495999e11 := by norm_num
    linarith
  · rw [stepBody_vy]
    rw [show sun.vy = 0 from rfl, show sun.ay = 0 from rfl, zero_add, zero_add]
    exact mul_pos aySum_sun_ES (by norm_num)

/-! ### Evaluation of two zero-dt steps on the test bodies (claim C1) -/

lemma stepBody_name (l : List Planet) (dt : ℝ) (p : Planet) :
    (stepBody l dt p).name = p.name := rfl

lemma stepBody_ax (l : List Planet) (dt : ℝ) (p : Planet) :
    (stepBody l dt p).ax = 0 := rfl

lemma stepBody_ay (l : List Planet) (dt : ℝ) (p : Planet) :
    (stepBody l dt p).ay = 0 := rfl

lemma stepBody_E_kin (l : List Planet) (dt : ℝ) (p : Planet) :
    (stepBody l dt p).E_kin = 0.5 * p.mass *
      Real.sqrt ((p.vx + (p.ax + axSum p l) * dt) ^ 2 +
        (p.vy + (p.ay + aySum p l) * dt) ^ 2) ^ 2 := rfl

lemma stepBody_total_energy (l : List Planet) (dt : ℝ) (p : Planet) :
    (stepBody l dt p).total_energy =
      (stepBody l dt p).E_kin + (p.E_pot + potSum p l) := rfl

lemma stepBody_energies (l : List Planet) (dt : ℝ) (p : Planet) :
    (stepBody l dt p).energies =
      p.energies ++ [(stepBody l dt p).E_kin + (p.E_pot + potSum p l)] := rfl

/-- Pairwise potential contribution between the two unit-mass test
bodies at distance 5. -/
noncomputable def c1pot : ℝ := -(GRAV_CONST / 5)

lemma potSum_A_AB : potSum bodyA [bodyA, bodyB] = c1pot := by
  rw [potSum_cons, if_neg (by simp), potSum_cons,
      if_pos (by simp [bodyA, bodyB, Planet.init])]
  have h0 : potSum bodyA ([] : List Planet) = 0 := by simp [potSum]
  rw [h0, add_zero]
  unfold pairPot c1pot
  rw [distance_AB]
  simp [bodyA, bodyB, Planet.init]
  ring

lemma potSum_B_AB : potSum bodyB [bodyA, bodyB] = c1pot := by
  rw [potSum_cons, if_pos (by simp [bodyA, bodyB, Planet.init]), potSum_cons,
      if_neg (by simp)]
  have h0 : potSum bodyB ([] : List Planet) = 0 := by simp [potSum]
  rw [h0, add_zero]
  unfold pairPot c1pot
  rw [show distance bodyB bodyA = 5 from by rw [distance_comm]; exact distance_AB]
  simp [bodyA, bodyB, Planet.init]
  ring

/-- State of `bodyA` after one `dt = 0` step. -/
noncomputable def bodyA₁ : Planet :=
  { bodyA with
    E_kin := 0
    E_pot := c1pot
    total_energy := c1pot
    x_positions := [0]
    y_positions := [0]
    energies := [c1pot]
    kin_energies := [0]
    pot_energies := [c1pot] }

/-- State of `bodyB` after one `dt = 0` step. -/
noncomputable def bodyB₁ : Planet :=
  { bodyB with
    E_kin := 0
    E_pot := c1pot
    total_energy := c1pot
    x_positions := [3]
    y_positions := [4]
    energies := [c1pot]
    kin_energies := [0]
    pot_energies := [c1pot] }

lemma step1A : stepBody [bodyA, bodyB] 0 bodyA = bodyA₁ := by
  apply Planet.ext
  · rfl
  · rfl
  · rw [stepBody_x]
    norm_num [bodyA, bodyA₁, Planet.init]
  · rw [stepBody_y]
    norm_num [bodyA, bodyA₁, Planet.init]
  · rw [stepBody_vx]
    norm_num [bodyA, bodyA₁, Planet.init]
  · rw [stepBody_vy]
    norm_num [bodyA, bodyA₁, Planet.init]
  · rw [stepBody_ax]
    rfl
  · rw [stepBody_ay]
    rfl
  · rfl
  · rw [stepBody_E_kin]
    norm_num [bodyA, bodyA₁, Planet.init, Real.sqrt_zero]
  · rw [stepBody_E_pot, potSum_A_AB]
    simp [bodyA, bodyA₁, Planet.init]
  · rw [stepBody_total_energy, stepBody_E_kin, potSum_A_AB]
    norm_num [bodyA, bodyA₁, Planet.init, Real.sqrt_zero]
  · rw [stepBody_x_positions]
    norm_num [bodyA, bodyA₁, Planet.init]
  · rw [stepBody_y_positions]
    norm_num [bodyA, bodyA₁, Planet.init]
  · rw [stepBody_energies, stepBody_E_kin, potSum_A_AB]
    norm_num [bodyA, bodyA₁, Planet.init, Real.sqrt_zero]
  · rw [stepBody_kin_energies]
    norm_num [bodyA, bodyA₁, Planet.init, Real.sqrt_zero]
  · rw [stepBody_pot_energies, potSum_A_AB]
    simp [bodyA, bodyA₁, Planet.init]

lemma step1B : stepBody [bodyA, bodyB] 0 bodyB = bodyB₁ := by
  apply Planet.ext
  · rfl
  · rfl
  · rw [stepBody_x]
    norm_num [bodyB, bodyB₁, Planet.init]
  · rw [stepBody_y]
    norm_num [bodyB, bodyB₁, Planet.init]
  · rw [stepBody_vx]
    norm_num [bodyB, bodyB₁, Planet.init]
  · rw [stepBody_vy]
    norm_num [bodyB, bodyB₁, Planet.init]
  · rw [stepBody_ax]
    rfl
  · rw [stepBody_ay]
    rfl
  · rfl
  · rw [stepBody_E_kin]
    norm_num [bodyB, bodyB₁, Planet.init, Real.sqrt_zero]
  · rw [stepBody_E_pot, potSum_B_AB]
    simp [bodyB, bodyB₁, Planet.init]
  · rw [stepBody_total_energy, stepBody_E_kin, potSum_B_AB]
    norm_num [bodyB, bodyB₁, Planet.init, Real.sqrt_zero]
  · rw [stepBody_x_positions]
    norm_num [bodyB, bodyB₁, Planet.init]
  · rw [stepBody_y_positions]
    norm_num [bodyB, bodyB₁, Planet.init]
  · rw [stepBody_energies, stepBody_E_kin, potSum_B_AB]
    norm_num [bodyB, bodyB₁, Planet.init, Real.sqrt_zero]
  · rw [stepBody_kin_energies]
    norm_num [bodyB, bodyB₁, Planet.init, Real.sqrt_zero]
  · rw [stepBody_pot_energies, potSum_B_AB]
    simp [bodyB, bodyB₁, Planet.init]

lemma not_deg_A1B1 : ¬ Degenerate [bodyA₁, bodyB₁] := by
  rintro ⟨p, hp, q, hq, hpid, hx, hy⟩
  simp only [List.mem_cons, List.not_mem_nil, or_false] at hp hq
  rcases hp with rfl | rfl <;> rcases hq with rfl | rfl <;>
    simp [bodyA₁, bodyB₁, bodyA, bodyB, Planet.init] at hpid hx hy

lemma potSum_A1 : potSum bodyA₁ [bodyA₁, bodyB₁] = c1pot := by
  rw [potSum_cons, if_neg (by simp), potSum_cons,
      if_pos (by simp [bodyA₁, bodyB₁, bodyA, bodyB, Planet.init])]
  have h0 : potSum bodyA₁ ([] : List Planet) = 0 := by simp [potSum]
  rw [h0, add_zero]
  unfold pairPot c1pot
  rw [show distance bodyA₁ bodyB₁ = 5 from by
    rw [show distance bodyA₁ bodyB₁ = distance bodyA bodyB from rfl]
    exact distance_AB]
  simp [bodyA₁, bodyB₁, bodyA, bodyB, Planet.init]
  ring

/-- Claim C1 (code bug): `loop_euler` resets `ax`/`ay` each step but
never resets `E_pot`, so the potential energy appended at step `N`
carries over every earlier step's contributions.  Two `dt = 0` steps on
two unit-mass bodies at rest at distance 5 (the positions are static, so
the fresh per-step pairwise sum is `-G/5` at both steps, as the third
conjunct records) append `[-G/5, -G/5 + -G/5]` to the potential-energy
history, whereas the claim requires the step-2 entry to be the step-2
pairwise sum `-G/5` alone — and `-G/5 + -G/5 ≠ -G/5`. -/
theorem c1_pot_energy_carryover :
    ∃ pa pb, stepN 0 2 [bodyA, bodyB] = .ok [pa, pb] ∧
      potSum bodyA₁ [bodyA₁, bodyB₁] = -(GRAV_CONST / 5) ∧
      pa.pot_energies = [-(GRAV_CONST / 5), -(GRAV_CONST / 5) + -(GRAV_CONST / 5)] ∧
      (-(GRAV_CONST / 5) + -(GRAV_CONST / 5) : ℝ) ≠ -(GRAV_CONST / 5) := by
  have hok₁ : loop_euler [bodyA, bodyB] 0 = .ok [bodyA₁, bodyB₁] := by
    rw [loop_euler_spec, if_neg not_deg_AB,
        show List.map (stepBody [bodyA, bodyB] 0) [bodyA, bodyB] =
          [stepBody [bodyA, bodyB] 0 bodyA, stepBody [bodyA, bodyB] 0 bodyB] from
          rfl,
        step1A, step1B]
  refine ⟨stepBody [bodyA₁, bodyB₁] 0 bodyA₁, stepBody [bodyA₁, bodyB₁] 0 bodyB₁,
    ?_, ?_, ?_, ?_⟩
  · show stepN 0 (1 + 1) [bodyA, bodyB] = _
    rw [stepN_succ, hok₁]
    show stepN 0 (0 + 1) [bodyA₁, bodyB₁] = _
    rw [stepN_succ, loop_euler_spec, if_neg not_deg_A1B1]
    rfl
  · rw [potSum_A1]
    rfl
  · rw [stepBody_pot_energies, potSum_A1]
    simp [bodyA₁, c1pot]
  · unfold GRAV_CONST
    norm_num

end PlanetSim
